import Mathlib

/-!
Verification of the generic read pipeline of the `connectors` repository
(providers `supersend` and `okta`): record extraction from JSON envelopes,
offset-based pagination cursor building, connector-side incremental time
filtering, and read-orchestrator validation and pagination invariants.

The provider handler logic is embedded from
`providers/supersend/handlers.go` and `providers/okta/handlers.go`.
Library primitives those handlers call (`internal/jsonquery`,
`common/readhelper`, `common/urlbuilder`, `common.ParseResultFiltered`)
are part of the repository but their sources are not available here; they
are modelled from the specification and marked `Modelled from the spec:`.
-/

/-! ## JSON data model -/

/-- JSON values, embedding the `ajson.Node` trees the handlers operate on.
Objects are association lists of key/value pairs; numbers are abstracted
to integers (record timestamps and ids in the claims are integral). -/
inductive Json where
  | null : Json
  | bool : Bool → Json
  | num : Int → Json
  | str : String → Json
  | arr : List Json → Json
  | obj : List (String × Json) → Json

/-- `ajson.Node.IsObject`. -/
def Json.isObject : Json → Bool
  | .obj _ => true
  | _ => false

/-- Value bound to a key in an object's association list (first match). -/
def jsonLookup (kvs : List (String × Json)) (k : String) : Option Json :=
  match kvs with
  | [] => none
  | (k2, v) :: rest => if k2 = k then some v else jsonLookup rest k

/-- Key lookup on a JSON value: `none` on non-objects and absent keys. -/
def Json.getKey : Json → String → Option Json
  | .obj kvs, k => jsonLookup kvs k
  | _, _ => none

/-- The shape errors of the `jsonquery` package used by the handlers:
`ErrKeyNotFound`, `ErrNotArray`, `ErrNotObject`, `ErrNotBool`. -/
inductive JQError where
  | errKeyNotFound
  | errNotArray
  | errNotObject
  | errNotBool
  deriving DecidableEq

/-! ## jsonquery primitives (library code, modelled) -/

/-- Modelled from the spec: `jsonquery.Queries.ObjectOptional` (the
`internal/jsonquery` package is not among the available sources).  Spec 4.1:
dotted-path intermediate components "must resolve to a nested object".
Returns the object stored under the key, `none` when the key is absent,
and a shape error when the node is not an object or the key holds a
non-object value. -/
def objectOptional (node : Json) (key : String) : Except JQError (Option Json) :=
  match node with
  | .obj kvs =>
    match jsonLookup kvs key with
    | none => .ok none
    | some (.obj kvs2) => .ok (some (.obj kvs2))
    | some _ => .error .errNotObject
  | _ => .error .errNotObject

/-- Modelled from the spec: `jsonquery.Queries.ArrayOptional` (the
`internal/jsonquery` package is not among the available sources).  Spec 4.1
flat key: "Fails with ShapeError if absent or not an array", the absent
case being the key-not-found variant (spec 8: dotted path on a document
missing the final key "fails with ShapeError (key not found)"). -/
def arrayOptional (node : Json) (key : String) : Except JQError (List Json) :=
  match node with
  | .obj kvs =>
    match jsonLookup kvs key with
    | none => .error .errKeyNotFound
    | some (.arr items) => .ok items
    | some _ => .error .errNotArray
  | _ => .error .errNotObject

/-- Modelled from the spec: `jsonquery.Queries.BoolOptional` (the
`internal/jsonquery` package is not among the available sources): the
boolean stored under the key, `none` when absent, an error when the key
holds a non-boolean value or the node is not an object. -/
def boolOptional (node : Json) (key : String) : Except JQError (Option Bool) :=
  match node with
  | .obj kvs =>
    match jsonLookup kvs key with
    | none => .ok none
    | some (.bool b) => .ok (some b)
    | some _ => .error .errNotBool
  | _ => .error .errNotObject

/-! ## String helpers

`strings.Split(s, ".")` and `strings.Contains(s, ".")` from the Go
standard library, implemented structurally over the character list so
that they evaluate inside the kernel. -/

/-- `strings.Split(s, ".")`: split at dots, accumulator holds the current
chunk reversed. -/
def splitDotAux : List Char → List Char → List (List Char)
  | [], acc => [acc.reverse]
  | c :: rest, acc =>
    if c = '.' then acc.reverse :: splitDotAux rest []
    else splitDotAux rest (c :: acc)

/-- `strings.Split(responseKey, ".")`. -/
def splitOnDot (s : String) : List String :=
  (splitDotAux s.data []).map fun cs => String.mk cs

/-- `strings.Contains(responseKey, ".")`. -/
def containsDot (s : String) : Bool :=
  s.data.any fun c => c = '.'

/-! ## SuperSend record extraction (providers/supersend/handlers.go) -/

/-- `getSingleObjectAsArray`, first revision (handlers.go lines 185–198):
wraps a single object response in an array, first unwrapping an
object-valued `"data"` key when present (the `/org` pattern); a failing
or empty `"data"` probe falls through to the whole node. -/
def getSingleObjectAsArrayV1 (node : Json) : Except JQError (List Json) :=
  if node.isObject = false then .error .errNotArray
  else
    match objectOptional node "data" with
    | .ok (some dataNode) => .ok [dataNode]
    | _ => .ok [node]

/-- `getSingleObjectAsArray`, second revision (handlers.go lines 584–591):
returns the whole object node as the sole record, with no `"data"`
unwrapping. -/
def getSingleObjectAsArrayV2 (node : Json) : Except JQError (List Json) :=
  if node.isObject then .ok [node] else .error .errNotArray

/-- Loop body of `getNestedRecords` (handlers.go lines 200–226): walk the
dotted-path components; every component except the last must resolve to a
nested object (`ErrKeyNotFound` when absent), the last is read as an
array. The empty-parts case mirrors the unreachable trailing
`return nil, jsonquery.ErrNotArray`. -/
def getNestedRecordsAux : List String → Json → Except JQError (List Json)
  | [], _ => .error .errNotArray
  | [part], node => arrayOptional node part
  | part :: part2 :: rest, node =>
    match objectOptional node part with
    | .error e => .error e
    | .ok none => .error .errKeyNotFound
    | .ok (some child) => getNestedRecordsAux (part2 :: rest) child

/-- `getNestedRecords` (handlers.go lines 200–226). -/
def getNestedRecords (node : Json) (responseKey : String) : Except JQError (List Json) :=
  getNestedRecordsAux (splitOnDot responseKey) node

/-- `getRecords` (handlers.go lines 165–180): empty responseKey →
single-object envelope; dotted responseKey → nested traversal; otherwise
flat-key array extraction. -/
def getRecords (responseKey : String) (node : Json) : Except JQError (List Json) :=
  if responseKey = "" then getSingleObjectAsArrayV1 node
  else if containsDot responseKey then getNestedRecords node responseKey
  else arrayOptional node responseKey

/-! ## Okta record extraction (providers/okta/handlers.go) -/

/-- `responseField` (okta handlers.go lines 53–61): `"domains"` wraps its
array under a key, every other object returns a root-level array
(descriptor `""`). -/
def responseField (objectName : String) : String :=
  if objectName = "domains" then "domains" else ""

/-- Modelled from the spec: `common.MakeRecordsFunc`, the generic record
extractor okta hands its `responseField` result to (the `common` package
is not among the available sources).  Spec 4.1: "Empty descriptor +
document is a JSON array at top level → each element is a record"; a flat
key extracts the array stored under that key. -/
def makeRecordsFunc (responseKey : String) (node : Json) : Except JQError (List Json) :=
  if responseKey = "" then
    match node with
    | .arr items => .ok items
    | _ => .error .errNotArray
  else arrayOptional node responseKey

/-! ## Claim C1 -/

/-- C1 (counterexample): on the root-level JSON array `[{"id": 1}]` the
SuperSend `getRecords` with responseKey `""` does not return the array's
elements — it fails with `ErrNotArray`, because the empty responseKey
selects the single-object envelope and an array is not an object. -/
theorem c1_supersend_empty_key_fails_on_root_array :
    getRecords "" (Json.arr [Json.obj [("id", Json.num 1)]]) = .error .errNotArray ∧
    getRecords "" (Json.arr [Json.obj [("id", Json.num 1)]]) ≠ .ok [Json.obj [("id", Json.num 1)]] :=
  ⟨rfl, fun h =>
    Except.noConfusion
      (show (Except.error JQError.errNotArray : Except JQError (List Json)) =
          .ok [Json.obj [("id", Json.num 1)]] from h)⟩

/-- C1 (amended): for every JSON document whose top level is a JSON array,
the generic record extractor with an empty envelope descriptor — the one
okta's `responseField` feeds (which returns `""` for objects such as
`"users"`) — yields the array's elements as records; the SuperSend
`getRecords` with responseKey `""` instead treats the document as a
single-object envelope and fails with `ErrNotArray` on a root-level
array. -/
theorem c1_empty_descriptor_root_array (elems : List Json) :
    getRecords "" (Json.arr elems) = .error .errNotArray ∧
    makeRecordsFunc "" (Json.arr elems) = .ok elems ∧
    makeRecordsFunc (responseField "users") (Json.arr elems) = .ok elems :=
  ⟨rfl, rfl, rfl⟩

/-! ## Claim C5 -/

/-- C5: the dotted-path descriptor `"data.items"` extracts exactly the
record `{"id": 1}` from `{"data": {"items": [{"id": 1}]}}`, and on
`{"data": {}}` fails with the key-not-found shape error. -/
theorem c5_dotted_path_extraction :
    getRecords "data.items"
        (Json.obj [("data", Json.obj [("items", Json.arr [Json.obj [("id", Json.num 1)]])])])
      = .ok [Json.obj [("id", Json.num 1)]] ∧
    getRecords "data.items" (Json.obj [("data", Json.obj [])])
      = .error .errKeyNotFound :=
  ⟨rfl, rfl⟩

/-! ## Claim C10 -/

/-- Does the node carry an object-valued `"data"` key?  This is exactly
the situation where the first revision of `getSingleObjectAsArray`
unwraps and the second does not. -/
def hasObjectData (node : Json) : Bool :=
  match node with
  | .obj kvs =>
    match jsonLookup kvs "data" with
    | some (.obj _) => true
    | _ => false
  | _ => false

/-- C10 (counterexample): on the node `{"data": {}}` the two revisions of
`getSingleObjectAsArray` disagree — the first returns the unwrapped
`{}`, the second the whole node — so they are not extensionally equal. -/
theorem c10_two_revisions_disagree :
    getSingleObjectAsArrayV1 (Json.obj [("data", Json.obj [])])
      ≠ getSingleObjectAsArrayV2 (Json.obj [("data", Json.obj [])]) := by
  intro h
  have h2 : (Except.ok [Json.obj []] : Except JQError (List Json))
      = .ok [Json.obj [("data", Json.obj [])]] := h
  simp at h2

/-- C10 (amended): the two revisions of `getSingleObjectAsArray` agree on
every JSON node that does not carry an object-valued `"data"` key (both
fail with `ErrNotArray` on non-objects and both return the whole object
otherwise); they differ exactly on objects with an object-valued
`"data"` key, which the first revision unwraps. -/
theorem c10_agree_without_object_data (node : Json)
    (h : hasObjectData node = false) :
    getSingleObjectAsArrayV1 node = getSingleObjectAsArrayV2 node := by
  cases node with
  | null => rfl
  | bool b => rfl
  | num n => rfl
  | str s => rfl
  | arr items => rfl
  | obj kvs =>
    simp only [hasObjectData] at h
    simp only [getSingleObjectAsArrayV1, getSingleObjectAsArrayV2, Json.isObject,
      objectOptional, if_true, if_neg (by simp : ¬(true = false))]
    cases hl : jsonLookup kvs "data" with
    | none => rfl
    | some v =>
      cases v with
      | obj kvs2 => rw [hl] at h; simp at h
      | null => rfl
      | bool b => rfl
      | num n => rfl
      | str s => rfl
      | arr items => rfl

/-- C10 (witness for the amended theorem): the node
`{"data": "s"}` has no object-valued `"data"` key and both revisions
return it whole. -/
theorem c10_agree_without_object_data_witness :
    hasObjectData (Json.obj [("data", Json.str "s")]) = false ∧
    getSingleObjectAsArrayV1 (Json.obj [("data", Json.str "s")])
      = getSingleObjectAsArrayV2 (Json.obj [("data", Json.str "s")]) :=
  ⟨rfl, c10_agree_without_object_data (Json.obj [("data", Json.str "s")]) rfl⟩

/-! ## Incremental filter (common/readhelper, modelled; provider
selection logic from the handler sources) -/

/-- The `readhelper` ordering assumptions: `ChronologicalOrder` and
`Unordered`. -/
inductive RecordOrdering where
  | chronological
  | unordered
  deriving DecidableEq

/-- The time window of a read: `ReadParams.Since` and `ReadParams.Until`,
abstracted to integer timestamps (`none` = bound unset / zero time). -/
structure TimeWindow where
  sinceB : Option Int
  untilB : Option Int

/-- `readhelper`'s connector-side filter failure: the spec's
TimestampParseError. -/
inductive FilterError where
  | timestampParse
  deriving DecidableEq

/-- Modelled from the spec: timestamp parsing inside
`readhelper.MakeTimeFilterFunc` (the `common/readhelper` package is not
among the available sources), abstracted to integer timelines: a number
stored under the timestamp field is the parsed timestamp; a present
non-number value is unparsable and "fails the whole page with a
TimestampParseError"; a missing field "is treated as not in window, i.e.
excluded, not an error" (spec 4.3). -/
def recTimestamp (tsField : String) (r : Json) : Except FilterError (Option Int) :=
  match r.getKey tsField with
  | none => .ok none
  | some (.num t) => .ok (some t)
  | some _ => .error .timestampParse

/-- Spec 4.3 pass condition: `window.since <= timestamp` (when since is
set) and `timestamp < window.until` (when until is set; open window when
unset). -/
def inWindow (w : TimeWindow) (t : Int) : Bool :=
  (match w.sinceB with
   | none => true
   | some s => decide (s ≤ t)) &&
  (match w.untilB with
   | none => true
   | some u => decide (t < u))

/-- Spec 4.3 chronological stop condition: the timestamp is "at or past
`window.until`" (never triggered on an open upper bound). -/
def pastUpper (w : TimeWindow) (t : Int) : Bool :=
  match w.untilB with
  | none => false
  | some u => decide (u ≤ t)

/-- Modelled from the spec: `readhelper.MakeTimeFilterFunc` under
`Unordered` (the `common/readhelper` package is not among the available
sources): "evaluate every record independently; stop-signal always
false; no short-circuit" (spec 4.3). -/
def filterUnordered (w : TimeWindow) (tsField : String) :
    List Json → Except FilterError (List Json)
  | [] => .ok []
  | r :: rs =>
    match recTimestamp tsField r with
    | .error e => .error e
    | .ok none => filterUnordered w tsField rs
    | .ok (some t) =>
      match filterUnordered w tsField rs with
      | .error e => .error e
      | .ok kept => .ok (if inWindow w t then r :: kept else kept)

/-- Modelled from the spec: `readhelper.MakeTimeFilterFunc` under
`ChronologicalOrder` (the `common/readhelper` package is not among the
available sources): evaluate records in page order; "once a record's
timestamp is at or past `window.until` — signal stop=true for the
remainder of this page and do not request further pages" (spec 4.3). -/
def filterChronological (w : TimeWindow) (tsField : String) :
    List Json → Except FilterError (List Json × Bool)
  | [] => .ok ([], false)
  | r :: rs =>
    match recTimestamp tsField r with
    | .error e => .error e
    | .ok none => filterChronological w tsField rs
    | .ok (some t) =>
      if pastUpper w t then .ok ([], true)
      else
        match filterChronological w tsField rs with
        | .error e => .error e
        | .ok (kept, stop) =>
          .ok ((if inWindow w t then r :: kept else kept), stop)

/-- The filter a handler wires into `ParseResultFiltered`: either
`readhelper.MakeIdentityFilterFunc` or `readhelper.MakeTimeFilterFunc`
with an ordering assumption and a timestamp field. -/
inductive FilterChoice where
  | identity
  | timeFilter (ord : RecordOrdering) (tsField : String)
  deriving DecidableEq

/-- Modelled from the spec: applying the chosen filter to one page of
extracted records (the `common/readhelper` package is not among the
available sources).  Identity: "returns all input records unchanged,
stop-signal always false" (spec 4.3). -/
def applyFilter (f : FilterChoice) (w : TimeWindow) (records : List Json) :
    Except FilterError (List Json × Bool) :=
  match f with
  | .identity => .ok (records, false)
  | .timeFilter .unordered tsField =>
    match filterUnordered w tsField records with
    | .error e => .error e
    | .ok kept => .ok (kept, false)
  | .timeFilter .chronological tsField => filterChronological w tsField records

/-- `objectsWithProviderSideFilter` (okta handlers.go lines 30–34). -/
def oktaObjectsWithProviderSideFilter : List String :=
  ["users", "groups", "apps"]

/-- `objectsWithConnectorSideFilter` (okta handlers.go lines 40–49). -/
def oktaObjectsWithConnectorSideFilter : List String :=
  ["devices", "idps", "authorizationServers", "trustedOrigins", "zones",
   "authenticators", "policies", "eventHooks"]

/-- `makeFilterFunc` (okta handlers.go lines 133–154): provider-side
filtered objects and `"logs"` get the identity filter, objects without a
usable timestamp get the identity filter, the rest get the chronological
connector-side time filter on `"lastUpdated"`. -/
def oktaMakeFilterFunc (objectName : String) : FilterChoice :=
  if objectName ∈ oktaObjectsWithProviderSideFilter ∨ objectName = "logs" then
    .identity
  else if objectName ∉ oktaObjectsWithConnectorSideFilter then
    .identity
  else
    .timeFilter .chronological "lastUpdated"

/-- `makeFilterFunc` (supersend handlers.go lines 143–158): identity when
neither `Since` nor `Until` is set, otherwise the unordered
connector-side time filter on `"updatedAt"`. -/
def supersendMakeFilterFunc (sinceIsZero untilIsZero : Bool) : FilterChoice :=
  if sinceIsZero && untilIsZero then .identity
  else .timeFilter .unordered "updatedAt"

/-- Modelled from the spec: Read Orchestrator pagination step (spec 4.4
step 5, `common.ParseResultFiltered` is not among the available sources):
"if the filter signaled stop, or the Cursor Builder reports no next
page, mark done=true, nextPageToken=\x22\x22. Otherwise set done=false and
populate the token from the Cursor Builder."  Result is the pair
`(done, nextPageToken)`. -/
def paginateStep (stop : Bool) (nextToken : String) : Bool × String :=
  if stop || nextToken = "" then (true, "") else (false, nextToken)

/-! ## Claim C2 -/

/-- An okta record carrying a `lastUpdated` timestamp. -/
def oktaRec (t : Int) : Json :=
  Json.obj [("lastUpdated", Json.num t)]

/-- C2: for a page with ascending timestamps `[T1, T2, T3]` and a window
whose upper bound lies strictly between `T2` and `T3` (and whose lower
bound, if set, is at most `T1`), okta's connector-side chronological
filter (selected for `"devices"`) keeps exactly `[T1, T2]` and signals
stop; the orchestrator's pagination step then reports done with an empty
token no matter what token the cursor builder produced. -/
theorem c2_chronological_early_stop (t1 t2 t3 u : Int) (w : TimeWindow)
    (token : String)
    (hsince : ∀ s, w.sinceB = some s → s ≤ t1)
    (huntil : w.untilB = some u)
    (h12 : t1 ≤ t2) (h2u : t2 < u) (hu3 : u < t3) :
    applyFilter (oktaMakeFilterFunc "devices") w [oktaRec t1, oktaRec t2, oktaRec t3]
      = .ok ([oktaRec t1, oktaRec t2], true) ∧
    paginateStep true token = (true, "") := by
  have hfc : oktaMakeFilterFunc "devices" = .timeFilter .chronological "lastUpdated" := rfl
  have hts : ∀ t : Int, recTimestamp "lastUpdated" (oktaRec t) = .ok (some t) :=
    fun t => rfl
  have hp1 : pastUpper w t1 = false := by
    simp only [pastUpper, huntil, decide_eq_false_iff_not, not_le]
    omega
  have hp2 : pastUpper w t2 = false := by
    simp only [pastUpper, huntil, decide_eq_false_iff_not, not_le]
    omega
  have hp3 : pastUpper w t3 = true := by
    simp only [pastUpper, huntil, decide_eq_true_eq]
    omega
  have hw1 : inWindow w t1 = true := by
    simp only [inWindow, huntil, Bool.and_eq_true, decide_eq_true_eq]
    refine ⟨?_, by omega⟩
    cases hs : w.sinceB with
    | none => rfl
    | some s => simpa using hsince s hs
  have hw2 : inWindow w t2 = true := by
    simp only [inWindow, huntil, Bool.and_eq_true, decide_eq_true_eq]
    refine ⟨?_, by omega⟩
    cases hs : w.sinceB with
    | none => rfl
    | some s => simpa using le_trans (hsince s hs) h12
  refine ⟨?_, rfl⟩
  rw [hfc]
  simp only [applyFilter, filterChronological, hts, hp1, hp2, hp3, hw1, hw2,
    if_true, if_false, Bool.false_eq_true]

/-- C2 (witness): timestamps 1, 2, 4 with upper bound 3. -/
theorem c2_chronological_early_stop_witness :
    applyFilter (oktaMakeFilterFunc "devices") ⟨none, some 3⟩
        [oktaRec 1, oktaRec 2, oktaRec 4]
      = .ok ([oktaRec 1, oktaRec 2], true) ∧
    paginateStep true "https://example.okta.com/api/v1/devices?after=x" = (true, "") :=
  c2_chronological_early_stop 1 2 4 3 ⟨none, some 3⟩
    "https://example.okta.com/api/v1/devices?after=x"
    (fun s hs => Option.noConfusion hs) rfl
    (by norm_num) (by norm_num) (by norm_num)

/-! ## Claim C6 -/

/-- Does the record's timestamp field parse (absent is fine, a present
non-number is the unparsable case)? -/
def tsParses (tsField : String) (r : Json) : Bool :=
  match r.getKey tsField with
  | none => true
  | some (.num _) => true
  | some _ => false

/-- Is the record's timestamp present and inside the window?  Records
with a missing timestamp field are excluded (spec 4.3). -/
def recordInWindow (tsField : String) (w : TimeWindow) (r : Json) : Bool :=
  match r.getKey tsField with
  | some (.num t) => inWindow w t
  | _ => false

/-- The unordered filter is exactly `List.filter` by the in-window
predicate on pages whose timestamps all parse. -/
theorem filterUnordered_eq_filter (w : TimeWindow) (tsField : String)
    (records : List Json) (h : ∀ r ∈ records, tsParses tsField r = true) :
    filterUnordered w tsField records
      = .ok (records.filter (recordInWindow tsField w)) := by
  induction records with
  | nil => rfl
  | cons r rs ih =>
    have hr : tsParses tsField r = true := h r (List.mem_cons_self r rs)
    have hrs : ∀ x ∈ rs, tsParses tsField x = true :=
      fun x hx => h x (List.mem_cons_of_mem r hx)
    simp only [filterUnordered, List.filter_cons]
    cases hk : r.getKey tsField with
    | none =>
      simp only [recTimestamp, hk, ih hrs, recordInWindow, Bool.false_eq_true,
        if_false]
    | some v =>
      cases v with
      | num t =>
        simp only [recTimestamp, hk, ih hrs, recordInWindow]
      | null => simp [tsParses, hk] at hr
      | bool b => simp [tsParses, hk] at hr
      | str s => simp [tsParses, hk] at hr
      | arr items => simp [tsParses, hk] at hr
      | obj kvs => simp [tsParses, hk] at hr

/-- A supersend record carrying an `updatedAt` timestamp. -/
def ssRec (t : Int) : Json :=
  Json.obj [("updatedAt", Json.num t)]

/-- C6: supersend's connector-side filter (selected whenever a time bound
is set) evaluates every record of the page independently: for every
window and every page whose timestamps parse, it returns exactly the
in-window records — in arrival order, whatever that order is — and its
stop-signal is false. -/
theorem c6_unordered_filter (w : TimeWindow) (records : List Json)
    (h : ∀ r ∈ records, tsParses "updatedAt" r = true) :
    applyFilter (supersendMakeFilterFunc false false) w records
      = .ok (records.filter (recordInWindow "updatedAt" w), false) := by
  have hfc : supersendMakeFilterFunc false false = .timeFilter .unordered "updatedAt" := rfl
  rw [hfc]
  simp only [applyFilter, filterUnordered_eq_filter w "updatedAt" records h]

/-- C6 (witness): records arriving out of order as `[T3, T1, T2]` =
`[30, 10, 20]` with upper bound 25: exactly `T1, T2` pass, stop-signal
false. -/
theorem c6_unordered_filter_witness :
    applyFilter (supersendMakeFilterFunc false false) ⟨none, some 25⟩
        [ssRec 30, ssRec 10, ssRec 20]
      = .ok ([ssRec 10, ssRec 20], false) :=
  (c6_unordered_filter ⟨none, some 25⟩ [ssRec 30, ssRec 10, ssRec 20]
    (by decide)).trans rfl

/-! ## Claim C7 -/

/-- `pageLimit` (okta handlers.go line 20). -/
def pageLimit : Nat := 200

/-- `buildReadRequest` (okta handlers.go lines 65–109): the query
parameters attached to a fresh (non-NextPage) read request.
`sinceIsZero` stands for `params.Since.IsZero()` and `sinceStr` for
`datautils.Time.FormatRFC3339inUTC(params.Since)`. -/
def oktaBuildReadQuery (objectName : String) (paramPageSize : Nat)
    (sinceIsZero : Bool) (sinceStr : String) : List (String × String) :=
  let pageSize :=
    if 0 < paramPageSize then
      (if pageLimit < paramPageSize then pageLimit else paramPageSize)
    else pageLimit
  let base : List (String × String) := [("limit", toString pageSize)]
  if sinceIsZero = false then
    if objectName = "logs" then base ++ [("since", sinceStr)]
    else if objectName ∈ oktaObjectsWithProviderSideFilter then
      base ++ [("filter", "lastUpdated gt \"" ++ sinceStr ++ "\"")]
    else base
  else base

/-- C7: an okta object outside both filter tables (Filter Policy = None)
with a non-zero `since` bound: the built request query is just the limit
parameter — no `since` parameter and no `filter` expression — and the
selected filter is the identity, which excludes no record and never
signals stop. -/
theorem c7_filter_policy_none (objectName : String) (paramPageSize : Nat)
    (sinceStr : String) (w : TimeWindow) (records : List Json)
    (hp : objectName ∉ oktaObjectsWithProviderSideFilter)
    (hl : objectName ≠ "logs")
    (hc : objectName ∉ oktaObjectsWithConnectorSideFilter) :
    (∃ limitValue, oktaBuildReadQuery objectName paramPageSize false sinceStr
        = [("limit", limitValue)]) ∧
    oktaMakeFilterFunc objectName = .identity ∧
    applyFilter (oktaMakeFilterFunc objectName) w records = .ok (records, false) := by
  have hq : oktaBuildReadQuery objectName paramPageSize false sinceStr
      = [("limit", toString (if 0 < paramPageSize then
          (if pageLimit < paramPageSize then pageLimit else paramPageSize)
          else pageLimit))] := by
    simp only [oktaBuildReadQuery, if_neg hl, if_neg hp, if_true]
  have hf : oktaMakeFilterFunc objectName = .identity := by
    simp only [oktaMakeFilterFunc]
    rw [if_neg (by simp [hp, hl]), if_pos hc]
  exact ⟨⟨_, hq⟩, hf, by rw [hf]; rfl⟩

/-- C7 (witness): object `"domains"` (in neither filter table) with a
non-zero since bound. -/
theorem c7_filter_policy_none_witness :
    (∃ limitValue, oktaBuildReadQuery "domains" 0 false "2024-01-15T10:00:00Z"
        = [("limit", limitValue)]) ∧
    oktaMakeFilterFunc "domains" = .identity ∧
    applyFilter (oktaMakeFilterFunc "domains") ⟨some 5, none⟩ [Json.null]
      = .ok ([Json.null], false) :=
  c7_filter_policy_none "domains" 0 "2024-01-15T10:00:00Z" ⟨some 5, none⟩
    [Json.null] (by decide) (by decide) (by decide)

/-! ## Claim C8 -/

/-- C8: a page result's next-page token is non-empty exactly when its
done flag is false — the orchestrator's pagination step can only produce
`(true, "")` or `(false, token)` with `token` non-empty. -/
theorem c8_token_nonempty_iff_not_done (stop : Bool) (nextToken : String) :
    (paginateStep stop nextToken).2 ≠ "" ↔ (paginateStep stop nextToken).1 = false := by
  cases stop with
  | false =>
    by_cases h : nextToken = "" <;> simp [paginateStep, h]
  | true => simp [paginateStep]

/-! ## Claim C9 -/

/-- The input-validation errors of the read orchestrator:
`common.ErrMissingObjects` and `common.ErrMissingFields`. -/
inductive ValidationError where
  | missingObjects
  | missingFields
  deriving DecidableEq

/-- Modelled from the spec: read-parameter validation (spec 4.4 step 1
and spec 8 boundary; `common.ReadParams.ValidateParams` is not among the
available sources): an absent object name fails with MissingObjectError,
an empty requested-field set fails with MissingFieldsError, and both
checks run before any schema lookup or request dispatch — the schema is
not consulted, so the outcome is "independent of object name
validity". -/
def validateReadParams (objectName : String) (fields : List String) :
    Option ValidationError :=
  if objectName = "" then some .missingObjects
  else if fields = [] then some .missingFields
  else none

/-- C9: whenever an object name was given but the requested field set is
empty, validation fails with MissingFieldsError — whatever the object
name is, known or unknown to the schema. -/
theorem c9_missing_fields (objectName : String) (fields : List String)
    (hobj : objectName ≠ "") (hfields : fields = []) :
    validateReadParams objectName fields = some .missingFields := by
  simp [validateReadParams, hobj, hfields]

/-- C9 (witness): an object name no schema knows still yields
MissingFieldsError on an empty field set. -/
theorem c9_missing_fields_witness :
    validateReadParams "object-unknown-to-every-schema" [] = some .missingFields :=
  c9_missing_fields "object-unknown-to-every-schema" [] (by decide) rfl

/-! ## Pagination cursor builder (providers/supersend/handlers.go)

Request-URL query values are association lists of key/value pairs, the
embedding of Go's `url.Values` (single-valued here: the handlers only
ever read the first value of a key and set whole keys). -/

/-- `url.Values.Get`: first value bound to the key, `""` when absent. -/
def qGet : List (String × String) → String → String
  | [], _ => ""
  | p :: rest, k => if p.1 = k then p.2 else qGet rest k

/-- `url.Values.Set`: bind the key to exactly this value. -/
def qSet (q : List (String × String)) (k v : String) : List (String × String) :=
  (k, v) :: q.filter fun p => p.1 != k

/-- Digit run of `strconv.Atoi`, most significant first. -/
def digitsToNatAux : List Char → Nat → Option Nat
  | [], acc => some acc
  | c :: rest, acc =>
    if 48 ≤ c.toNat ∧ c.toNat ≤ 57 then
      digitsToNatAux rest (acc * 10 + (c.toNat - 48))
    else none

/-- `strconv.Atoi`: optional sign then decimal digits, `none` on empty or
malformed input (overflow is out of model). -/
def atoi (s : String) : Option Int :=
  match s.data with
  | [] => none
  | c :: rest =>
    if c = '-' then
      if rest = [] then none
      else (digitsToNatAux rest 0).map fun n => -(n : Int)
    else if c = '+' then
      if rest = [] then none
      else (digitsToNatAux rest 0).map fun n => (n : Int)
    else (digitsToNatAux (c :: rest) 0).map fun n => (n : Int)

/-- `hasMoreRecords` (supersend handlers.go lines 244–256): the
`pagination.has_more` flag, false on any missing or malformed piece. -/
def hasMoreRecords (node : Json) : Bool :=
  match objectOptional node "pagination" with
  | .error _ => false
  | .ok none => false
  | .ok (some paginationNode) =>
    match boolOptional paginationNode "has_more" with
    | .error _ => false
    | .ok none => false
    | .ok (some hasMore) => hasMore

/-- `calculateNextOffset` (supersend handlers.go lines 259–280): current
offset (default 0 when absent or unparsable) plus limit (default 100). -/
def calculateNextOffset (q : List (String × String)) : Int :=
  let currentOffset : Int :=
    if qGet q "offset" ≠ "" then
      match atoi (qGet q "offset") with
      | some parsed => parsed
      | none => 0
    else 0
  let limit : Int :=
    if qGet q "limit" ≠ "" then
      match atoi (qGet q "limit") with
      | some parsed => parsed
      | none => 100
    else 100
  currentOffset + limit

/-- Query rewriting done by `buildNextPageURL` (supersend handlers.go
lines 283–306): overwrite `offset` with the next offset and default
`limit` to the page size `"100"` when absent; every other parameter is
carried over. -/
def nextPageQuery (q : List (String × String)) (nextOffset : Int) :
    List (String × String) :=
  let q1 := qSet q "offset" (toString nextOffset)
  if qGet q1 "limit" = "" then qSet q1 "limit" "100" else q1

/-- Byte-wise lexicographic order on strings as character lists,
kernel-computable (Go renders query strings in a fixed canonical order;
`String` order from the library does not reduce in the kernel). -/
def strLeB : List Char → List Char → Bool
  | [], _ => true
  | _ :: _, [] => false
  | a :: as, b :: bs =>
    if a.toNat < b.toNat then true
    else if b.toNat < a.toNat then false
    else strLeB as bs

/-- Key order on query parameters. -/
def keyLe (a b : String × String) : Prop :=
  strLeB a.1.data b.1.data = true

instance : DecidableRel keyLe := fun a b => by unfold keyLe; infer_instance

/-- Query parameters sorted by key. -/
def sortQ (q : List (String × String)) : List (String × String) :=
  List.insertionSort keyLe q

/-- Modelled from the spec: `urlbuilder.URL.String` after
`urlbuilder.New(baseURL, path)` and repeated `WithQueryParam`
(`common/urlbuilder` is not among the available sources).  Spec 4.2
requires `computeNext` to be "deterministic and idempotent given the
same inputs", so the rendering is canonical: query parameters appear
sorted by key, `key=value` joined with `&`. -/
def renderURL (baseURL path : String) (q : List (String × String)) : String :=
  baseURL ++ path ++ "?" ++
    String.intercalate "&" ((sortQ q).map fun p => p.1 ++ "=" ++ p.2)

/-- `buildNextPageURL` (supersend handlers.go lines 283–306): rebuild the
URL from the base URL and the request path with the rewritten query. -/
def buildNextPageURL (baseURL path : String) (q : List (String × String))
    (nextOffset : Int) : String :=
  renderURL baseURL path (nextPageQuery q nextOffset)

/-- `makeNextRecordsURL` (supersend handlers.go lines 230–241): empty
token when `pagination.has_more` is not true, otherwise the next-page
URL at the incremented offset. -/
def makeNextRecordsURL (baseURL path : String) (q : List (String × String))
    (node : Json) : String :=
  if hasMoreRecords node then
    buildNextPageURL baseURL path q (calculateNextOffset q)
  else ""

/-! Association-list lemmas for the query model. -/

theorem qGet_filter_ne (q : List (String × String)) (k k2 : String)
    (h : k2 ≠ k) : qGet (q.filter fun p => p.1 != k) k2 = qGet q k2 := by
  induction q with
  | nil => rfl
  | cons p rest ih =>
    by_cases hp : p.1 = k
    · have : (p.1 != k) = false := by simp [hp]
      simp only [List.filter_cons, this, qGet, if_neg (show ¬ p.1 = k2 by rw [hp]; exact fun hk => h hk.symm)]
      exact ih
    · have : (p.1 != k) = true := by simp [hp]
      simp only [List.filter_cons, this, qGet]
      by_cases hp2 : p.1 = k2
      · simp [hp2]
      · simp only [if_neg hp2]
        exact ih

theorem qGet_qSet_same (q : List (String × String)) (k v : String) :
    qGet (qSet q k v) k = v := by
  simp [qSet, qGet]

theorem qGet_qSet_ne (q : List (String × String)) (k v k2 : String)
    (h : k2 ≠ k) : qGet (qSet q k v) k2 = qGet q k2 := by
  simp only [qSet, qGet, if_neg (fun hk : k = k2 => h hk.symm)]
  exact qGet_filter_ne q k k2 h

/-! ## Claim C3 -/

/-- C3: on a request URL with `limit=100` and `offset=200` and a response
document whose `pagination.has_more` is true, the offset cursor builder
computes next offset 300 and produces the next-page URL whose query
carries `offset=300`, `limit=100`, and every other parameter of the
request unchanged. -/
theorem c3_offset_round_trip (baseURL path : String)
    (q : List (String × String)) (doc : Json)
    (hlim : qGet q "limit" = "100") (hoff : qGet q "offset" = "200")
    (hmore : hasMoreRecords doc = true) :
    calculateNextOffset q = 300 ∧
    makeNextRecordsURL baseURL path q doc
      = renderURL baseURL path (nextPageQuery q 300) ∧
    qGet (nextPageQuery q 300) "offset" = "300" ∧
    qGet (nextPageQuery q 300) "limit" = "100" ∧
    ∀ k, k ≠ "offset" → qGet (nextPageQuery q 300) k = qGet q k := by
  have hcalc : calculateNextOffset q = 300 := by
    simp only [calculateNextOffset, hoff, hlim]
    rfl
  have hq1lim : qGet (qSet q "offset" (toString (300 : Int))) "limit" = "100" :=
    (qGet_qSet_ne q "offset" (toString (300 : Int)) "limit" (by decide)).trans hlim
  have hnp : nextPageQuery q 300 = qSet q "offset" (toString (300 : Int)) := by
    simp only [nextPageQuery, hq1lim,
      if_neg (show ¬ ("100" : String) = "" by decide)]
  refine ⟨hcalc, ?_, ?_, ?_, ?_⟩
  · unfold makeNextRecordsURL
    rw [hmore, if_pos rfl, hcalc]
    rfl
  · rw [hnp]
    exact qGet_qSet_same q "offset" (toString (300 : Int))
  · rw [hnp]
    exact hq1lim
  · intro k hk
    rw [hnp]
    exact qGet_qSet_ne q "offset" (toString (300 : Int)) k hk

/-- C3 (witness): request query `limit=100&offset=200&teamId=team-1` and
a true has-more flag: next offset 300, the extra `teamId` parameter is
preserved verbatim, and the rendered next URL is fully concrete. -/
theorem c3_offset_round_trip_witness :
    calculateNextOffset [("limit", "100"), ("offset", "200"), ("teamId", "team-1")] = 300 ∧
    makeNextRecordsURL "https://api.supersend.io" "/v1/senders"
        [("limit", "100"), ("offset", "200"), ("teamId", "team-1")]
        (Json.obj [("pagination", Json.obj [("has_more", Json.bool true)])])
      = "https://api.supersend.io/v1/senders?limit=100&offset=300&teamId=team-1" ∧
    qGet (nextPageQuery [("limit", "100"), ("offset", "200"), ("teamId", "team-1")] 300)
        "teamId" = "team-1" := by
  obtain ⟨h1, h2, h3, h4, h5⟩ :=
    c3_offset_round_trip "https://api.supersend.io" "/v1/senders"
      [("limit", "100"), ("offset", "200"), ("teamId", "team-1")]
      (Json.obj [("pagination", Json.obj [("has_more", Json.bool true)])])
      rfl rfl rfl
  exact ⟨h1, h2.trans rfl, (h5 "teamId" (by decide)).trans rfl⟩

/-! ## Claim C4: determinism of the offset cursor builder

The only nondeterminism in the Go `buildNextPageURL` is the iteration
order of the `url.Values` map when re-applying query parameters; two
invocations on the same inputs may enumerate the parameters in different
orders.  Enumeration orders of the same map are exactly the permutations
of its (key-distinct) binding list, so determinism is: the produced URL
does not depend on that permutation. -/

theorem strLeB_total (as bs : List Char) :
    strLeB as bs = true ∨ strLeB bs as = true := by
  induction as generalizing bs with
  | nil => left; rfl
  | cons a as ih =>
    cases bs with
    | nil => right; rfl
    | cons b bs =>
      simp only [strLeB]
      rcases Nat.lt_trichotomy a.toNat b.toNat with h | h | h
      · left; rw [if_pos h]
      · rw [if_neg (by omega), if_neg (by omega), if_neg (by omega),
          if_neg (by omega)]
        exact ih bs
      · right; rw [if_pos h]

theorem strLeB_trans (as bs cs : List Char) (h1 : strLeB as bs = true)
    (h2 : strLeB bs cs = true) : strLeB as cs = true := by
  induction as generalizing bs cs with
  | nil => rfl
  | cons a as ih =>
    cases bs with
    | nil => simp [strLeB] at h1
    | cons b bs =>
      cases cs with
      | nil => simp [strLeB] at h2
      | cons c cs =>
        simp only [strLeB] at h1 h2 ⊢
        rcases Nat.lt_trichotomy a.toNat b.toNat with hab | hab | hab
        · rcases Nat.lt_trichotomy b.toNat c.toNat with hbc | hbc | hbc
          · rw [if_pos (by omega)]
          · rw [if_pos (by omega)]
          · rw [if_neg (by omega), if_pos (by omega)] at h2
            exact absurd h2 (by decide)
        · rw [if_neg (by omega), if_neg (by omega)] at h1
          rcases Nat.lt_trichotomy b.toNat c.toNat with hbc | hbc | hbc
          · rw [if_pos (by omega)]
          · rw [if_neg (by omega), if_neg (by omega)] at h2
            rw [if_neg (by omega), if_neg (by omega)]
            exact ih bs cs h1 h2
          · rw [if_neg (by omega), if_pos (by omega)] at h2
            exact absurd h2 (by decide)
        · rw [if_neg (by omega), if_pos (by omega)] at h1
          exact absurd h1 (by decide)

theorem strLeB_antisymm (as bs : List Char) (h1 : strLeB as bs = true)
    (h2 : strLeB bs as = true) : as = bs := by
  induction as generalizing bs with
  | nil =>
    cases bs with
    | nil => rfl
    | cons b bs => simp [strLeB] at h2
  | cons a as ih =>
    cases bs with
    | nil => simp [strLeB] at h1
    | cons b bs =>
      simp only [strLeB] at h1 h2
      rcases Nat.lt_trichotomy a.toNat b.toNat with hab | hab | hab
      · rw [if_neg (by omega), if_pos (by omega)] at h2
        exact absurd h2 (by decide)
      · rw [if_neg (by omega), if_neg (by omega)] at h1
        rw [if_neg (by omega), if_neg (by omega)] at h2
        have hchar : a = b := by
          have hc := congrArg Char.ofNat hab
          rwa [Char.ofNat_toNat, Char.ofNat_toNat] at hc
        rw [hchar, ih bs h1 h2]
      · rw [if_neg (by omega), if_pos (by omega)] at h1
        exact absurd h1 (by decide)

instance : IsTotal (String × String) keyLe :=
  ⟨fun a b => strLeB_total a.1.data b.1.data⟩

instance : IsTrans (String × String) keyLe :=
  ⟨fun a b c => strLeB_trans a.1.data b.1.data c.1.data⟩

/-- Strict key order: at most one parameter per key makes sorted lists
unique. -/
def keyLt (a b : String × String) : Prop :=
  keyLe a b ∧ a.1 ≠ b.1

theorem string_eq_of_data_eq (s t : String) (h : s.data = t.data) : s = t := by
  cases s
  cases t
  exact congrArg String.mk (by simpa using h)

instance : IsAntisymm (String × String) keyLt :=
  ⟨fun a b h1 h2 =>
    absurd (string_eq_of_data_eq a.1 b.1 (strLeB_antisymm _ _ h1.1 h2.1)) h1.2⟩

/-- `url.Values.Get` is insensitive to the enumeration order of a
key-distinct binding list. -/
theorem qGet_perm {q1 q2 : List (String × String)} (hp : q1.Perm q2)
    (hnd : (q1.map Prod.fst).Nodup) (k : String) : qGet q1 k = qGet q2 k := by
  revert hnd
  induction hp with
  | nil => intro _; rfl
  | cons x h ih =>
    intro hnd
    simp only [List.map_cons, List.nodup_cons] at hnd
    simp only [qGet]
    by_cases hx : x.1 = k
    · rw [if_pos hx, if_pos hx]
    · rw [if_neg hx, if_neg hx]
      exact ih hnd.2
  | swap x y l =>
    intro hnd
    simp only [List.map_cons, List.nodup_cons, List.mem_cons] at hnd
    have hxy : y.1 ≠ x.1 := fun hEq => hnd.1 (Or.inl hEq)
    simp only [qGet]
    by_cases h1 : y.1 = k <;> by_cases h2 : x.1 = k
    · exact absurd (h1.trans h2.symm) hxy
    · rw [if_pos h1, if_neg h2, if_pos h1]
    · rw [if_neg h1, if_pos h2, if_pos h2]
    · rw [if_neg h1, if_neg h2, if_neg h2, if_neg h1]
  | trans h1 h2 ih1 ih2 =>
    intro hnd
    have hnd2 := ((h1.map Prod.fst).nodup_iff).mp hnd
    exact (ih1 hnd).trans (ih2 hnd2)

theorem qSet_perm {q1 q2 : List (String × String)} (hp : q1.Perm q2)
    (k v : String) : (qSet q1 k v).Perm (qSet q2 k v) := by
  unfold qSet
  exact (hp.filter fun p => p.1 != k).cons (k, v)

theorem map_fst_filter_ne (q : List (String × String)) (k : String) :
    ((q.filter fun p => p.1 != k).map Prod.fst)
      = (q.map Prod.fst).filter fun s => s != k := by
  induction q with
  | nil => rfl
  | cons p rest ih =>
    simp only [List.filter_cons, List.map_cons]
    cases h : (p.1 != k) <;> simp [h, ih]

theorem qSet_nodup_keys (q : List (String × String)) (k v : String)
    (hnd : (q.map Prod.fst).Nodup) : ((qSet q k v).map Prod.fst).Nodup := by
  simp only [qSet, List.map_cons, List.nodup_cons, map_fst_filter_ne]
  refine ⟨?_, hnd.filter _⟩
  simp [List.mem_filter]

theorem sortQ_perm (q : List (String × String)) : (sortQ q).Perm q :=
  List.perm_insertionSort keyLe q

theorem sortQ_sorted (q : List (String × String)) : (sortQ q).Sorted keyLe :=
  List.sorted_insertionSort keyLe q

/-- Sorting by key is a canonical form: any two enumeration orders of the
same key-distinct parameter set sort to the same list. -/
theorem sortQ_eq_of_perm {q1 q2 : List (String × String)} (hp : q1.Perm q2)
    (hnd : (q1.map Prod.fst).Nodup) : sortQ q1 = sortQ q2 := by
  have hperm : (sortQ q1).Perm (sortQ q2) :=
    (sortQ_perm q1).trans (hp.trans (sortQ_perm q2).symm)
  have hnd1 : ((sortQ q1).map Prod.fst).Nodup :=
    (((sortQ_perm q1).map Prod.fst).nodup_iff).mpr hnd
  have hnd2 : ((sortQ q2).map Prod.fst).Nodup :=
    ((hperm.map Prod.fst).nodup_iff).mp hnd1
  have hne1 : (sortQ q1).Pairwise fun a b => a.1 ≠ b.1 := by
    have h := hnd1
    rw [List.Nodup, List.pairwise_map] at h
    exact h
  have hne2 : (sortQ q2).Pairwise fun a b => a.1 ≠ b.1 := by
    have h := hnd2
    rw [List.Nodup, List.pairwise_map] at h
    exact h
  have hs1 : (sortQ q1).Sorted keyLt := ((sortQ_sorted q1).and hne1).imp fun h => h
  have hs2 : (sortQ q2).Sorted keyLt := ((sortQ_sorted q2).and hne2).imp fun h => h
  exact List.eq_of_perm_of_sorted hperm hs1 hs2

theorem calculateNextOffset_perm {q1 q2 : List (String × String)}
    (hp : q1.Perm q2) (hnd : (q1.map Prod.fst).Nodup) :
    calculateNextOffset q1 = calculateNextOffset q2 := by
  simp only [calculateNextOffset, qGet_perm hp hnd "offset", qGet_perm hp hnd "limit"]

theorem nextPageQuery_perm {q1 q2 : List (String × String)} (hp : q1.Perm q2)
    (hnd : (q1.map Prod.fst).Nodup) (n : Int) :
    (nextPageQuery q1 n).Perm (nextPageQuery q2 n) ∧
    ((nextPageQuery q1 n).map Prod.fst).Nodup := by
  have hq1p : (qSet q1 "offset" (toString n)).Perm (qSet q2 "offset" (toString n)) :=
    qSet_perm hp "offset" (toString n)
  have hq1nd : ((qSet q1 "offset" (toString n)).map Prod.fst).Nodup :=
    qSet_nodup_keys q1 "offset" (toString n) hnd
  have hlim : qGet (qSet q1 "offset" (toString n)) "limit"
      = qGet (qSet q2 "offset" (toString n)) "limit" :=
    qGet_perm hq1p hq1nd "limit"
  simp only [nextPageQuery]
  by_cases hl : qGet (qSet q1 "offset" (toString n)) "limit" = ""
  · rw [if_pos hl, if_pos (hlim.symm.trans hl)]
    exact ⟨qSet_perm hq1p "limit" "100", qSet_nodup_keys _ "limit" "100" hq1nd⟩
  · rw [if_neg hl, if_neg fun h => hl (hlim.trans h)]
    exact ⟨hq1p, hq1nd⟩

/-- C4: the offset cursor builder is deterministic and idempotent: for a
fixed request URL (a key-distinct query parameter set, enumerated in any
order — Go map iteration order is arbitrary), fixed response document and
fixed base/path, every invocation of `makeNextRecordsURL` produces the
identical next-page token string. -/
theorem c4_computeNext_deterministic (baseURL path : String)
    (q1 q2 : List (String × String)) (doc : Json)
    (hp : q1.Perm q2) (hnd : (q1.map Prod.fst).Nodup) :
    makeNextRecordsURL baseURL path q1 doc = makeNextRecordsURL baseURL path q2 doc := by
  unfold makeNextRecordsURL
  cases hm : hasMoreRecords doc with
  | false => rw [if_neg (by decide : ¬ (false = true)), if_neg (by decide : ¬ (false = true))]
  | true =>
    rw [if_pos rfl, if_pos rfl]
    unfold buildNextPageURL renderURL
    rw [calculateNextOffset_perm hp hnd,
      sortQ_eq_of_perm (nextPageQuery_perm hp hnd (calculateNextOffset q2)).1
        (nextPageQuery_perm hp hnd (calculateNextOffset q2)).2]

/-- C4 (witness): the two enumeration orders of the map
`{limit: 100, offset: 200, teamId: team-1}` produce the same token. -/
theorem c4_computeNext_deterministic_witness :
    makeNextRecordsURL "https://api.supersend.io" "/v1/senders"
        [("limit", "100"), ("offset", "200"), ("teamId", "team-1")]
        (Json.obj [("pagination", Json.obj [("has_more", Json.bool true)])])
      = makeNextRecordsURL "https://api.supersend.io" "/v1/senders"
        [("teamId", "team-1"), ("limit", "100"), ("offset", "200")]
        (Json.obj [("pagination", Json.obj [("has_more", Json.bool true)])]) :=
  c4_computeNext_deterministic "https://api.supersend.io" "/v1/senders"
    [("limit", "100"), ("offset", "200"), ("teamId", "team-1")]
    [("teamId", "team-1"), ("limit", "100"), ("offset", "200")]
    (Json.obj [("pagination", Json.obj [("has_more", Json.bool true)])])
    (by decide) (by decide)
